import Mathlib

/-!
Verification development for the BugMentor/todo-list repository.

Part 1 models the todo-item lifecycle (the `TodoStore` of the natural-language
specification).  The `TodoManager` JavaScript implementation is not part of the
checked-in sources (only its Playwright end-to-end tests and the specification
describe it), so the store operations are modelled from the specification text
and each such definition says so in its doc comment.

Part 2 embeds the count and summary logic of the CI report shell scripts
(`scripts/analyze_ci_results.sh`, `scripts/troubleshoot_html_reporter.sh`, and
the enhanced reporter kept among the unnamed sources), which are present in the
repository and are translated from their source.
-/

namespace TodoList

/-- Modelled from the spec: the `TodoItem` record of the data model (the
`TodoManager` JavaScript source is missing from the repository).  A stable
numeric `id` assigned at creation, the display `text`, and the `completed`
flag.  The insertion-order marker `createdAt` is represented by the position
inside the owned list together with the monotone id counter. -/
structure TodoItem where
  id : Nat
  text : String
  completed : Bool
deriving Repr, DecidableEq

/-- Modelled from the spec: the `TodoList` owned exclusively by `TodoStore` —
an ordered sequence of items, plus the fresh-id counter that `add` uses so
that ids stay unique. -/
structure TodoStore where
  items : List TodoItem
  nextId : Nat
deriving Repr, DecidableEq

/-- Modelled from the spec: the only two error kinds of the failure
semantics, `InvalidInput` and `NotFound`.  Errors are explicit result values,
never fatal. -/
inductive StoreError where
  | InvalidInput
  | NotFound
deriving Repr, DecidableEq

/-- Modelled from the spec: the three filter statuses `all`, `pending`,
`completed`. -/
inductive Status where
  | all
  | pending
  | completed
deriving Repr, DecidableEq

/-- Modelled from the spec: the store at application start — the empty list. -/
def TodoStore.empty : TodoStore := ⟨[], 0⟩

/-- Modelled from the spec: the trim-before-validation test of `add` — the
text is empty or consists only of whitespace, exactly when it trims to the
empty string. -/
def blankText (text : String) : Bool :=
  text.data.all Char.isWhitespace

/-- Modelled from the spec: `add(text)` fails with `InvalidInput` when `text`
is empty or whitespace-only (trim before validation) and then leaves the
store unchanged; on success it appends a new item with `completed = false`
to the end of the list and returns it. -/
def TodoStore.add (s : TodoStore) (text : String) :
    Except StoreError TodoItem × TodoStore :=
  if blankText text then
    (Except.error StoreError.InvalidInput, s)
  else
    let item : TodoItem := ⟨s.nextId, text, false⟩
    (Except.ok item, ⟨s.items ++ [item], s.nextId + 1⟩)

/-- Modelled from the spec: `toggle(id)` fails with `NotFound` when no item
with this id exists and then leaves the store unchanged; otherwise it flips
the `completed` flag of the item with this id in place and returns the
updated item. -/
def TodoStore.toggle (s : TodoStore) (i : Nat) :
    Except StoreError TodoItem × TodoStore :=
  match s.items.find? (fun t => t.id == i) with
  | none => (Except.error StoreError.NotFound, s)
  | some t =>
      (Except.ok { t with completed := !t.completed },
       ⟨s.items.map (fun u => if u.id == i then { u with completed := !u.completed } else u),
        s.nextId⟩)

/-- Modelled from the spec: `deleteCompleted()` removes every item where
`completed == true`, keeps the relative order of the remaining pending
items, and returns the count removed. -/
def TodoStore.deleteCompleted (s : TodoStore) : Nat × TodoStore :=
  ((s.items.filter (fun t => t.completed)).length,
   ⟨s.items.filter (fun t => !t.completed), s.nextId⟩)

/-- Modelled from the spec: `deleteById(id)` removes a single item regardless
of completion state and returns whether an item was found and removed. -/
def TodoStore.deleteById (s : TodoStore) (i : Nat) : Bool × TodoStore :=
  if s.items.any (fun t => t.id == i) then
    (true, ⟨s.items.filter (fun t => !(t.id == i)), s.nextId⟩)
  else
    (false, s)

/-- Modelled from the spec: `filter(status)` produces a read-only view and
never mutates the store; `all` returns every item in insertion order,
`pending` only the items with `completed == false`, `completed` only the
items with `completed == true`. -/
def TodoStore.filter (s : TodoStore) : Status → List TodoItem
  | Status.all => s.items
  | Status.pending => s.items.filter (fun t => !t.completed)
  | Status.completed => s.items.filter (fun t => t.completed)

/-- Modelled from the spec: `list()` is equivalent to `filter(all)`. -/
def TodoStore.list (s : TodoStore) : List TodoItem := s.filter Status.all

/-- Modelled from the spec: a whole sequence of `add` calls; a failing call
leaves the store unchanged and the sequence continues from the same state. -/
def TodoStore.runAdds (s : TodoStore) : List String → TodoStore
  | [] => s
  | t :: ts => TodoStore.runAdds (s.add t).2 ts

/-- Modelled from the spec: the operations a caller can invoke on the store,
used to describe the reachable states. -/
inductive Op where
  | add (text : String)
  | toggle (i : Nat)
  | deleteCompleted
  | deleteById (i : Nat)
  | filter (st : Status)
deriving Repr, DecidableEq

/-- Modelled from the spec: the state transition of one operation (the filter
query never mutates the store). -/
def TodoStore.applyOp (s : TodoStore) : Op → TodoStore
  | Op.add text => (s.add text).2
  | Op.toggle i => (s.toggle i).2
  | Op.deleteCompleted => s.deleteCompleted.2
  | Op.deleteById i => (s.deleteById i).2
  | Op.filter _ => s

/-- Modelled from the spec: the state after a sequence of operations starting
from a given store. -/
def TodoStore.runOps (s : TodoStore) (ops : List Op) : TodoStore :=
  ops.foldl TodoStore.applyOp s

/-- The internal invariant: ids are pairwise distinct and every id is below
the fresh-id counter. -/
def TodoStore.Inv (s : TodoStore) : Prop :=
  (s.items.map TodoItem.id).Nodup ∧ ∀ t ∈ s.items, t.id < s.nextId

end TodoList

namespace CiReports

/-- Abstraction of a JUnit-style XML result file as the report scripts read
it: the `tests`, `failures`, `errors` and `skipped` attribute values of the
`testsuites` element, plus the remaining file content, which the summary
logic of `troubleshoot_html_reporter.sh` and of the enhanced reporter never
inspects for the counts. -/
structure JUnitXml where
  tests : Nat
  failures : Nat
  errors : Nat
  skipped : Nat
  rest : String
deriving Repr, DecidableEq

/-- The `Passed` figure of the report scripts: plain shell integer
arithmetic `total_tests - total_failures - total_errors - total_skipped`,
with no clamping at zero (`passed=$((total - failures - errors - skipped))`
in both reporter scripts). -/
def passedCount (tests failures errors skipped : Nat) : Int :=
  (tests : Int) - failures - errors - skipped

/-- The numbers printed in the Test Results section of the generated HTML. -/
structure TestSection where
  total : Nat
  passed : Int
  failed : Nat
  errors : Nat
  skipped : Nat
deriving Repr, DecidableEq

/-- The Test Results part of the report: either the no-results message
(missing XML file) or the five figures. -/
inductive TestSummary where
  | noResults
  | counts (sec : TestSection)
deriving Repr, DecidableEq

/-- `extract_junit_summary` of `troubleshoot_html_reporter.sh`: with no XML
file it renders the no-results message; otherwise it takes the four counts
from the `testsuites` attributes and computes `passed` by shell
subtraction. -/
def extract_junit_summary : Option JUnitXml → TestSummary
  | none => TestSummary.noResults
  | some x =>
      TestSummary.counts
        ⟨x.tests, passedCount x.tests x.failures x.errors x.skipped,
         x.failures, x.errors, x.skipped⟩

/-- The `metadata.vulnerabilities` counts of an npm-audit style security
report. -/
structure VulnMeta where
  critical : Nat
  high : Nat
  moderate : Nat
  low : Nat
  info : Nat
deriving Repr, DecidableEq

/-- One record of a `vulnerabilities` array: the `severity` field the
scripts select on, plus the remaining fields (name, path, fix, ...). -/
structure VulnRecord where
  severity : String
  rest : String
deriving Repr, DecidableEq

/-- The two vulnerability-report shapes the scripts accept: the
`metadata.vulnerabilities` counts object, or an array of records each
carrying a `severity`. -/
inductive SecurityInput where
  | metadataCounts (m : VulnMeta)
  | records (vulns : List VulnRecord)
deriving Repr, DecidableEq

/-- Rows of the severity table the reporter builds with
`group_by(.severity) | map(\x7bseverity, count\x7d)`: one row per distinct
severity value with the number of records carrying it. -/
def severityRows (severities : List String) : List (String × Nat) :=
  severities.dedup.map (fun sev => (sev, severities.count sev))

/-- The Security Scan section of the generated HTML: the no-report message,
the five summary counts of `metadata.vulnerabilities`, or the total and the
per-severity table for the array shape. -/
inductive SecuritySection where
  | noReport
  | summaryCounts (m : VulnMeta)
  | table (total : Nat) (rows : List (String × Nat))
deriving Repr, DecidableEq

/-- The Security Scan rendering of `troubleshoot_html_reporter.sh`: no file
gives the no-report message; the `metadata.vulnerabilities` shape prints its
five counts; the array shape prints `.vulnerabilities | length` and the
per-severity table. -/
def renderSecuritySection : Option SecurityInput → SecuritySection
  | none => SecuritySection.noReport
  | some (SecurityInput.metadataCounts m) => SecuritySection.summaryCounts m
  | some (SecurityInput.records vulns) =>
      SecuritySection.table vulns.length (severityRows (vulns.map VulnRecord.severity))

/-- The two data-driven sections of the troubleshooting report. -/
structure Report where
  testSummary : TestSummary
  security : SecuritySection
deriving Repr, DecidableEq

/-- The report generation: both sections are always rendered, from the
optional JUnit XML and the optional vulnerability report. -/
def renderReport (junit : Option JUnitXml) (sec : Option SecurityInput) : Report :=
  ⟨extract_junit_summary junit, renderSecuritySection sec⟩

namespace EnhancedReporter

/-- The per-severity selection of the enhanced reporter kept among the
unnamed sources: `jq of .vulnerabilities selecting .severity == sev, then
length`. -/
def countSeverity (vulns : List CiReports.VulnRecord) (sev : String) : Nat :=
  (vulns.filter (fun v => v.severity == sev)).length

/-- `SECURITY_VULNERABILITIES` of the enhanced reporter: the sum of the
`critical`, `high`, `moderate` and `low` selections only — records with any
other severity value are not counted. -/
def securityVulnerabilities (vulns : List CiReports.VulnRecord) : Nat :=
  countSeverity vulns "critical" + countSeverity vulns "high"
    + countSeverity vulns "moderate" + countSeverity vulns "low"

/-- Descending insertion by severity string, modelling
`sort_by(.severity) | reverse` of the jq pipeline. -/
def insertBySeverityDesc (v : CiReports.VulnRecord) :
    List CiReports.VulnRecord → List CiReports.VulnRecord
  | [] => [v]
  | w :: ws =>
      if w.severity < v.severity then v :: w :: ws
      else w :: insertBySeverityDesc v ws

/-- Sort of the whole array, descending by severity. -/
def sortBySeverityDesc : List CiReports.VulnRecord → List CiReports.VulnRecord
  | [] => []
  | v :: vs => insertBySeverityDesc v (sortBySeverityDesc vs)

/-- `SECURITY_FINDINGS` of the enhanced reporter: it keeps its initial value
`No vulnerabilities found.` unless `SECURITY_VULNERABILITIES` is positive,
in which case the jq pipeline renders the first five records after the
descending severity sort, one line each (the record fields other than
`severity` are carried by `rest`). -/
def securityFindings (vulns : List CiReports.VulnRecord) : String :=
  if securityVulnerabilities vulns > 0 then
    String.intercalate "\n"
      (((sortBySeverityDesc vulns).take 5).map
        (fun v => "- " ++ v.rest ++ ": Severity: " ++ v.severity))
  else
    "No vulnerabilities found."

end EnhancedReporter

namespace AnalyzeCi

/-- One statement of `analyze_ci_results.sh`, as far as the errexit analysis
needs: a simple command with a given exit code (subject to `set -e`), a
command whose failure is masked by an or-true guard, the capture
`PLAYWRIGHT_EXIT_CODE=$?`, and the final
`exit` of the captured variable. -/
inductive Stmt where
  | cmd (code : Nat)
  | cmdOrTrue (code : Nat)
  | captureStatus
  | exitCaptured
deriving Repr, DecidableEq

/-- How a run of the script ends: an errexit abort at a failing command,
falling off the end of the statement list, or executing the final `exit` of
the captured variable.  Each outcome carries the value of
`PLAYWRIGHT_EXIT_CODE` at that point (`none` when the capture statement was
never executed). -/
inductive Outcome where
  | abort (code : Nat) (captured : Option Nat)
  | fellThrough (code : Nat) (captured : Option Nat)
  | finalExit (code : Nat) (captured : Option Nat)
deriving Repr, DecidableEq

/-- `set -e` semantics over the statement list: the second argument tracks
the status of the last command, a plain command with a non-zero exit code
aborts the whole script with that code, an or-true guarded command never
does, an assignment from the special parameter stores the last status and
itself succeeds. -/
def run : List Stmt → Nat → Option Nat → Outcome
  | [], last, cap => Outcome.fellThrough last cap
  | Stmt.cmd c :: rest, _, cap =>
      if c == 0 then run rest 0 cap else Outcome.abort c cap
  | Stmt.cmdOrTrue _ :: rest, _, cap => run rest 0 cap
  | Stmt.captureStatus :: rest, last, _ => run rest 0 (some last)
  | Stmt.exitCaptured :: _, _, cap => Outcome.finalExit (cap.getD 0) cap

/-- The exit codes of the effectful commands of `analyze_ci_results.sh`, in
source order. -/
structure Env where
  npmCi : Nat
  npmInstallGlobal : Nat
  waitOn : Nat
  mkdirReports : Nat
  playwright : Nat
  killApp : Nat
  dummyReport : Nat
  pythonAnalyzer : Nat
  catResults : Nat
deriving Repr, DecidableEq

/-- The statement sequence of `analyze_ci_results.sh` under `set -e`: setup
commands, the background server launch (whose launch status is 0), the
wait, the Playwright test run, the capture `PLAYWRIGHT_EXIT_CODE=$?`, the
or-true guarded kill, the dummy report, the analyzer, the final cat, and
`exit` of the captured variable.  The echo statements always succeed and
are folded into the neighbouring commands. -/
def script (e : Env) : List Stmt :=
  [ Stmt.cmd e.npmCi,
    Stmt.cmd e.npmInstallGlobal,
    Stmt.cmd 0,
    Stmt.cmd e.waitOn,
    Stmt.cmd e.mkdirReports,
    Stmt.cmd e.playwright,
    Stmt.captureStatus,
    Stmt.cmdOrTrue e.killApp,
    Stmt.cmd e.dummyReport,
    Stmt.cmd e.pythonAnalyzer,
    Stmt.cmd e.catResults,
    Stmt.exitCaptured ]

end AnalyzeCi

end CiReports

open TodoList CiReports

theorem length_filter_add_length_filter_not {α : Type} (l : List α) (p : α → Bool) :
    (l.filter p).length + (l.filter (fun a => !p a)).length = l.length := by
  induction l with
  | nil => rfl
  | cons a l ih => cases h : p a <;> simp [List.filter_cons, h] <;> omega

/-- Claim C1: `deleteCompleted` returns the number of completed items, the
remaining list holds exactly the pending items of the original store with
their relative order unchanged, and when no item is completed it returns 0
and leaves the store unchanged. -/
theorem deleteCompleted_spec (s : TodoStore) :
    s.deleteCompleted.1 = (s.items.filter (fun t => t.completed)).length
    ∧ s.deleteCompleted.1 + s.deleteCompleted.2.items.length = s.items.length
    ∧ (∀ t : TodoItem, t ∈ s.deleteCompleted.2.items ↔ t ∈ s.items ∧ t.completed = false)
    ∧ s.deleteCompleted.2.items.Sublist s.items
    ∧ ((∀ t ∈ s.items, t.completed = false) →
        s.deleteCompleted.1 = 0 ∧ s.deleteCompleted.2 = s) := by
  refine ⟨rfl, ?_, ?_, List.filter_sublist _, ?_⟩
  · simpa [TodoStore.deleteCompleted] using
      length_filter_add_length_filter_not s.items (fun t => t.completed)
  · intro t
    simp [TodoStore.deleteCompleted, List.mem_filter]
  · intro h
    refine ⟨?_, ?_⟩
    · simp only [TodoStore.deleteCompleted, List.length_eq_zero, List.filter_eq_nil_iff]
      intro t ht
      simp [h t ht]
    · obtain ⟨items, nid⟩ := s
      simp only [TodoStore.deleteCompleted, TodoStore.mk.injEq, and_true]
      exact List.filter_eq_self.mpr (fun t ht => by simp [h t ht])

/-- Closed instance of the hypothesis-bearing conjunct of the C1 theorem:
with one pending item, `deleteCompleted` returns 0 and changes nothing. -/
theorem deleteCompleted_spec_witness :
    (TodoStore.deleteCompleted ⟨[⟨0, "a", false⟩], 1⟩).1 = 0
    ∧ (TodoStore.deleteCompleted ⟨[⟨0, "a", false⟩], 1⟩).2 = ⟨[⟨0, "a", false⟩], 1⟩ :=
  (deleteCompleted_spec ⟨[⟨0, "a", false⟩], 1⟩).2.2.2.2 (by decide)

/-- Claim C2: the pending and completed views are disjoint, their union as
sets is the `all` view, the `all` view is the item list in insertion order,
and each view keeps the original insertion order. -/
theorem filter_views_spec (s : TodoStore) :
    s.filter Status.all = s.items
    ∧ (∀ t : TodoItem, t ∈ s.filter Status.pending → t ∉ s.filter Status.completed)
    ∧ (∀ t : TodoItem,
        t ∈ s.filter Status.all ↔ t ∈ s.filter Status.pending ∨ t ∈ s.filter Status.completed)
    ∧ (s.filter Status.pending).Sublist s.items
    ∧ (s.filter Status.completed).Sublist s.items := by
  refine ⟨rfl, ?_, ?_, List.filter_sublist _, List.filter_sublist _⟩
  · intro t hp hc
    simp only [TodoStore.filter, List.mem_filter] at hp hc
    have hfalse : t.completed = false := by simpa using hp.2
    rw [hfalse] at hc
    exact absurd hc.2 (by simp)
  · intro t
    simp only [TodoStore.filter, List.mem_filter]
    rcases Bool.eq_false_or_eq_true t.completed with hb | hb <;> simp [hb]

/-- Closed instance of the hypothesis-bearing conjunct of the C2 theorem:
a concrete pending item is absent from the completed view. -/
theorem filter_views_spec_witness :
    (⟨0, "a", false⟩ : TodoItem) ∉
      TodoStore.filter ⟨[⟨0, "a", false⟩], 1⟩ Status.completed :=
  (filter_views_spec ⟨[⟨0, "a", false⟩], 1⟩).2.1 ⟨0, "a", false⟩ (by decide)

/-- Claim C4: a failing `add` (empty or whitespace-only text after trimming)
reports `InvalidInput` and returns the store unchanged, and a failing
`toggle` (id absent from the list) reports `NotFound` and returns the store
unchanged, so subsequent operations behave as from the same state. -/
theorem error_atomicity_spec :
    (∀ (s : TodoStore) (text : String), blankText text = true →
        s.add text = (Except.error StoreError.InvalidInput, s))
    ∧ (∀ (s : TodoStore) (i : Nat), (∀ t ∈ s.items, t.id ≠ i) →
        s.toggle i = (Except.error StoreError.NotFound, s)) := by
  constructor
  · intro s text h
    simp [TodoStore.add, h]
  · intro s i h
    have hf : s.items.find? (fun t => t.id == i) = none :=
      List.find?_eq_none.mpr (fun t ht => by simpa using h t ht)
    simp [TodoStore.toggle, hf]

/-- Closed instance of the C4 theorem: adding whitespace-only text and
toggling a missing id fail with the explicit error values and leave the
empty store unchanged. -/
theorem error_atomicity_spec_witness :
    TodoStore.add ⟨[], 0⟩ "   " = (Except.error StoreError.InvalidInput, ⟨[], 0⟩)
    ∧ TodoStore.toggle ⟨[], 0⟩ 5 = (Except.error StoreError.NotFound, ⟨[], 0⟩) :=
  ⟨error_atomicity_spec.1 ⟨[], 0⟩ "   " (by decide),
   error_atomicity_spec.2 ⟨[], 0⟩ 5 (by simp)⟩

theorem runAdds_map_text (texts : List String) :
    ∀ s : TodoStore,
      (s.runAdds texts).items.map TodoItem.text
        = s.items.map TodoItem.text ++ texts.filter (fun t => !blankText t) := by
  induction texts with
  | nil => intro s; simp [TodoStore.runAdds]
  | cons t ts ih =>
      intro s
      cases hb : blankText t <;>
        simp [TodoStore.runAdds, TodoStore.add, hb, List.filter_cons, ih]

theorem runAdds_completed (texts : List String) :
    ∀ s : TodoStore, (∀ t ∈ s.items, t.completed = false) →
      ∀ t ∈ (s.runAdds texts).items, t.completed = false := by
  induction texts with
  | nil =>
      intro s h
      simpa [TodoStore.runAdds] using h
  | cons t ts ih =>
      intro s h
      simp only [TodoStore.runAdds]
      refine ih _ ?_
      cases hb : blankText t
      · intro u hu
        simp only [TodoStore.add, hb, Bool.false_eq_true, if_false, List.mem_append,
          List.mem_singleton] at hu
        rcases hu with hu | hu
        · exact h u hu
        · rw [hu]
      · simpa [TodoStore.add, hb] using h

/-- Claim C3: a successful `add` (text not whitespace-only) appends a new
item with `completed = false` to the end of the list and returns it, and a
sequence of `add` calls from the empty store produces exactly the texts of
the successful calls, in call order, so the list length equals the number
of successful adds. -/
theorem add_sequence_spec :
    (∀ (s : TodoStore) (text : String), blankText text = false →
      s.add text
        = (Except.ok (⟨s.nextId, text, false⟩ : TodoItem),
           ⟨s.items ++ [⟨s.nextId, text, false⟩], s.nextId + 1⟩))
    ∧ (∀ texts : List String,
        (TodoStore.empty.runAdds texts).items.map TodoItem.text
          = texts.filter (fun t => !blankText t)
        ∧ (TodoStore.empty.runAdds texts).items.length
          = (texts.filter (fun t => !blankText t)).length
        ∧ ∀ t ∈ (TodoStore.empty.runAdds texts).items, t.completed = false) := by
  constructor
  · intro s text hb
    simp [TodoStore.add, hb]
  · intro texts
    have hmap : (TodoStore.empty.runAdds texts).items.map TodoItem.text
        = texts.filter (fun t => !blankText t) := by
      have h0 := runAdds_map_text texts TodoStore.empty
      rwa [show TodoStore.empty.items = [] from rfl, List.map_nil, List.nil_append] at h0
    refine ⟨hmap, ?_, runAdds_completed texts TodoStore.empty (by simp [TodoStore.empty])⟩
    calc (TodoStore.empty.runAdds texts).items.length
        = ((TodoStore.empty.runAdds texts).items.map TodoItem.text).length := by simp
      _ = (texts.filter (fun t => !blankText t)).length := by rw [hmap]

/-- Closed instance of the hypothesis-bearing conjunct of the C3 theorem:
adding a concrete non-blank text to the empty store. -/
theorem add_sequence_spec_witness :
    TodoStore.add ⟨[], 0⟩ "buy some cheese"
      = (Except.ok (⟨0, "buy some cheese", false⟩ : TodoItem),
         ⟨([] : List TodoItem) ++ [⟨0, "buy some cheese", false⟩], 0 + 1⟩) :=
  add_sequence_spec.1 ⟨[], 0⟩ "buy some cheese" (by decide)

/-- The in-place update a successful `toggle i` applies to each list item. -/
def toggleFlip (i : Nat) (u : TodoItem) : TodoItem :=
  if u.id == i then { u with completed := !u.completed } else u

theorem toggleFlip_id (i : Nat) (u : TodoItem) : (toggleFlip i u).id = u.id := by
  by_cases hc : u.id = i <;> simp [toggleFlip, hc]

theorem toggleFlip_text (i : Nat) (u : TodoItem) : (toggleFlip i u).text = u.text := by
  by_cases hc : u.id = i <;> simp [toggleFlip, hc]

theorem toggleFlip_involutive (i : Nat) (u : TodoItem) :
    toggleFlip i (toggleFlip i u) = u := by
  obtain ⟨uid, utext, ucomp⟩ := u
  by_cases hc : uid = i <;> simp [toggleFlip, hc]

theorem toggle_eq_of_find? (s : TodoStore) (i : Nat) (ta : TodoItem)
    (hfind : s.items.find? (fun t => t.id == i) = some ta) :
    s.toggle i
      = (Except.ok { ta with completed := !ta.completed },
         ⟨s.items.map (toggleFlip i), s.nextId⟩) := by
  simp only [TodoStore.toggle, hfind]
  rfl

/-- Claim C5: toggling an id present in the list returns that item with its
`completed` flag flipped, keeps length, every id and every text, changes the
flag of exactly the items carrying the requested id, and toggling the same
id twice in succession restores the original store (an involution, while a
single toggle does flip). -/
theorem toggle_spec (s : TodoStore) (i : Nat) (h : ∃ t ∈ s.items, t.id = i) :
    (∃ t ∈ s.items, t.id = i ∧
        (s.toggle i).1 = Except.ok { t with completed := !t.completed })
    ∧ (s.toggle i).2.items.length = s.items.length
    ∧ (s.toggle i).2.nextId = s.nextId
    ∧ (∀ j : Fin s.items.length, ∀ hj : (j : Nat) < (s.toggle i).2.items.length,
        ((s.toggle i).2.items.get ⟨j, hj⟩).id = (s.items.get j).id
        ∧ ((s.toggle i).2.items.get ⟨j, hj⟩).text = (s.items.get j).text
        ∧ ((s.toggle i).2.items.get ⟨j, hj⟩).completed
            = (if (s.items.get j).id = i then !(s.items.get j).completed
               else (s.items.get j).completed))
    ∧ (∃ t', ((s.toggle i).2.toggle i).1 = Except.ok t')
    ∧ ((s.toggle i).2.toggle i).2 = s := by
  obtain ⟨t0, ht0, hid0⟩ := h
  have hsome : (s.items.find? (fun t => t.id == i)).isSome := by
    rw [List.find?_isSome]
    exact ⟨t0, ht0, by simp [hid0]⟩
  obtain ⟨ta, hfind⟩ := Option.isSome_iff_exists.mp hsome
  have hta_mem : ta ∈ s.items := List.mem_of_find?_eq_some hfind
  have hta_id : ta.id = i := by simpa using List.find?_some hfind
  have htog := toggle_eq_of_find? s i ta hfind
  have hfind2 : (s.items.map (toggleFlip i)).find? (fun t => t.id == i)
      = some (toggleFlip i ta) := by
    rw [List.find?_map]
    have hcomp : ((fun t : TodoItem => t.id == i) ∘ toggleFlip i)
        = fun t : TodoItem => t.id == i :=
      funext (fun u => by simp [Function.comp, toggleFlip_id])
    rw [hcomp, hfind]
    rfl
  have htog2 := toggle_eq_of_find? ⟨s.items.map (toggleFlip i), s.nextId⟩ i
    (toggleFlip i ta) hfind2
  have hmm : (s.items.map (toggleFlip i)).map (toggleFlip i) = s.items := by
    rw [List.map_map,
      show toggleFlip i ∘ toggleFlip i = id from funext (toggleFlip_involutive i),
      List.map_id]
  refine ⟨⟨ta, hta_mem, hta_id, by simp [htog]⟩, by simp [htog], by simp [htog], ?_, ?_, ?_⟩
  · intro j hj
    have hget : (s.toggle i).2.items.get ⟨(j : Nat), hj⟩
        = toggleFlip i (s.items.get j) := by
      simp only [htog, List.get_eq_getElem, List.getElem_map]
    rw [hget]
    simp only [List.get_eq_getElem]
    refine ⟨toggleFlip_id i _, toggleFlip_text i _, ?_⟩
    by_cases hc : (s.items[(j : Nat)]).id = i <;> simp [toggleFlip, hc]
  · exact ⟨{ toggleFlip i ta with completed := !(toggleFlip i ta).completed },
      by simp only [htog, htog2]⟩
  · obtain ⟨items, nid⟩ := s
    simp only [htog, htog2, TodoStore.mk.injEq]
    exact ⟨hmm, trivial⟩

/-- Closed instance of the C5 theorem: toggling the only item of a concrete
store twice restores the store. -/
theorem toggle_spec_witness :
    ((TodoStore.toggle ⟨[⟨0, "a", false⟩], 1⟩ 0).2.toggle 0).2
      = ⟨[⟨0, "a", false⟩], 1⟩ :=
  (toggle_spec ⟨[⟨0, "a", false⟩], 1⟩ 0 ⟨⟨0, "a", false⟩, by decide, rfl⟩).2.2.2.2.2

theorem toggleFlip_map_ids (i : Nat) (l : List TodoItem) :
    (l.map (toggleFlip i)).map TodoItem.id = l.map TodoItem.id := by
  rw [List.map_map]
  exact List.map_congr_left (fun u _ => toggleFlip_id i u)

theorem applyOp_inv (s : TodoStore) (op : Op) (h : s.Inv) : (s.applyOp op).Inv := by
  obtain ⟨hnd, hlt⟩ := h
  cases op with
  | add text =>
      cases hb : blankText text
      · refine ⟨?_, ?_⟩
        · simp only [TodoStore.applyOp, TodoStore.add, hb, Bool.false_eq_true, if_false,
            List.map_append, List.map_cons, List.map_nil]
          rw [List.nodup_append]
          refine ⟨hnd, List.nodup_singleton _, ?_⟩
          intro a ha hmem
          rcases List.mem_map.mp ha with ⟨t, ht, hta⟩
          rcases List.mem_singleton.mp hmem with rfl
          exact absurd (hta ▸ hlt t ht) (lt_irrefl _)
        · intro t ht
          simp only [TodoStore.applyOp, TodoStore.add, hb, Bool.false_eq_true, if_false,
            List.mem_append, List.mem_singleton] at ht ⊢
          rcases ht with ht | ht
          · exact Nat.lt_succ_of_lt (hlt t ht)
          · rw [ht]
            exact Nat.lt_succ_self _
      · simpa [TodoStore.applyOp, TodoStore.add, hb, TodoStore.Inv] using ⟨hnd, hlt⟩
  | toggle i =>
      cases hfind : s.items.find? (fun t => t.id == i) with
      | none =>
          simpa [TodoStore.applyOp, TodoStore.toggle, hfind, TodoStore.Inv] using ⟨hnd, hlt⟩
      | some ta =>
          have htog := toggle_eq_of_find? s i ta hfind
          refine ⟨?_, ?_⟩
          · simp only [TodoStore.applyOp, htog]
            rw [toggleFlip_map_ids]
            exact hnd
          · intro t ht
            simp only [TodoStore.applyOp, htog] at ht ⊢
            rcases List.mem_map.mp ht with ⟨u, hu, hut⟩
            rw [← hut, toggleFlip_id]
            exact hlt u hu
  | deleteCompleted =>
      refine ⟨?_, ?_⟩
      · simp only [TodoStore.applyOp, TodoStore.deleteCompleted]
        exact List.Nodup.sublist ((List.filter_sublist _).map TodoItem.id) hnd
      · intro t ht
        simp only [TodoStore.applyOp, TodoStore.deleteCompleted, List.mem_filter] at ht ⊢
        exact hlt t ht.1
  | deleteById i =>
      by_cases hany : s.items.any (fun t => t.id == i) = true
      · refine ⟨?_, ?_⟩
        · simp only [TodoStore.applyOp, TodoStore.deleteById, hany, if_true]
          exact List.Nodup.sublist ((List.filter_sublist _).map TodoItem.id) hnd
        · intro t ht
          simp only [TodoStore.applyOp, TodoStore.deleteById, hany, if_true,
            List.mem_filter] at ht ⊢
          exact hlt t ht.1
      · simpa [TodoStore.applyOp, TodoStore.deleteById, hany, TodoStore.Inv] using ⟨hnd, hlt⟩
  | filter st => exact ⟨hnd, hlt⟩

theorem runOps_inv (ops : List Op) :
    ∀ s : TodoStore, s.Inv → (s.runOps ops).Inv := by
  induction ops with
  | nil => intro s h; exact h
  | cons op ops ih => intro s h; exact ih (s.applyOp op) (applyOp_inv s op h)

theorem applyOp_ids_stable (s : TodoStore) (op : Op) :
    ∀ t' ∈ (s.applyOp op).items,
      (∃ t ∈ s.items, t'.id = t.id ∧ t'.text = t.text)
      ∨ (∃ text : String, op = Op.add text ∧ t'.id = s.nextId) := by
  intro t' ht'
  cases op with
  | add text =>
      cases hb : blankText text
      · simp only [TodoStore.applyOp, TodoStore.add, hb, Bool.false_eq_true, if_false,
          List.mem_append, List.mem_singleton] at ht'
        rcases ht' with ht' | ht'
        · exact Or.inl ⟨t', ht', rfl, rfl⟩
        · exact Or.inr ⟨text, rfl, by rw [ht']⟩
      · simp only [TodoStore.applyOp, TodoStore.add, hb, if_true] at ht'
        exact Or.inl ⟨t', ht', rfl, rfl⟩
  | toggle i =>
      cases hfind : s.items.find? (fun t => t.id == i) with
      | none =>
          simp only [TodoStore.applyOp, TodoStore.toggle, hfind] at ht'
          exact Or.inl ⟨t', ht', rfl, rfl⟩
      | some ta =>
          have htog := toggle_eq_of_find? s i ta hfind
          simp only [TodoStore.applyOp, htog] at ht'
          rcases List.mem_map.mp ht' with ⟨u, hu, hut⟩
          exact Or.inl ⟨u, hu, by rw [← hut, toggleFlip_id], by rw [← hut, toggleFlip_text]⟩
  | deleteCompleted =>
      simp only [TodoStore.applyOp, TodoStore.deleteCompleted, List.mem_filter] at ht'
      exact Or.inl ⟨t', ht'.1, rfl, rfl⟩
  | deleteById i =>
      by_cases hany : s.items.any (fun t => t.id == i) = true
      · simp only [TodoStore.applyOp, TodoStore.deleteById, hany, if_true,
          List.mem_filter] at ht'
        exact Or.inl ⟨t', ht'.1, rfl, rfl⟩
      · simp only [TodoStore.applyOp, TodoStore.deleteById, hany, if_false] at ht'
        exact Or.inl ⟨t', ht', rfl, rfl⟩
  | filter st => exact Or.inl ⟨t', ht', rfl, rfl⟩

/-- Claim C6: in every state reachable from the empty store by add, toggle,
deleteCompleted, deleteById and filter operations the ids are pairwise
distinct, and every operation leaves the id (and text) of each surviving
item unchanged — a new id appears only as the fresh id of an `add`. -/
theorem ids_invariant_spec :
    (∀ ops : List Op, ((TodoStore.empty.runOps ops).items.map TodoItem.id).Nodup)
    ∧ (∀ (s : TodoStore) (op : Op), ∀ t' ∈ (s.applyOp op).items,
        (∃ t ∈ s.items, t'.id = t.id ∧ t'.text = t.text)
        ∨ (∃ text : String, op = Op.add text ∧ t'.id = s.nextId)) := by
  refine ⟨?_, applyOp_ids_stable⟩
  intro ops
  exact (runOps_inv ops TodoStore.empty ⟨by simp [TodoStore.empty], by simp [TodoStore.empty]⟩).1

/-- Closed instance of the hypothesis-bearing conjunct of the C6 theorem at
a concrete store, operation and member item. -/
theorem ids_invariant_spec_witness :
    (∃ t ∈ (⟨[⟨0, "a", false⟩], 1⟩ : TodoStore).items,
        (⟨0, "a", false⟩ : TodoItem).id = t.id
        ∧ (⟨0, "a", false⟩ : TodoItem).text = t.text)
    ∨ (∃ text : String, Op.filter Status.all = Op.add text
        ∧ (⟨0, "a", false⟩ : TodoItem).id = (⟨[⟨0, "a", false⟩], 1⟩ : TodoStore).nextId) :=
  ids_invariant_spec.2 ⟨[⟨0, "a", false⟩], 1⟩ (Op.filter Status.all) ⟨0, "a", false⟩ (by decide)

/-- Claim C7: the report scripts render the test summary from exactly the
tests, failures, errors and skipped counts of the JUnit XML, render the
security section from either the metadata vulnerability counts or the
severity fields of the records array, and still produce a report when
either input (or both) is absent. -/
theorem report_rendering_spec :
    renderReport none none = ⟨TestSummary.noResults, SecuritySection.noReport⟩
    ∧ (∀ x : JUnitXml, (renderReport (some x) none).security = SecuritySection.noReport)
    ∧ (∀ si : SecurityInput,
        (renderReport none (some si)).testSummary = TestSummary.noResults)
    ∧ (∀ x y : JUnitXml, x.tests = y.tests → x.failures = y.failures →
        x.errors = y.errors → x.skipped = y.skipped →
        extract_junit_summary (some x) = extract_junit_summary (some y))
    ∧ (∀ m : VulnMeta,
        renderSecuritySection (some (SecurityInput.metadataCounts m))
          = SecuritySection.summaryCounts m)
    ∧ (∀ u v : List VulnRecord,
        u.map VulnRecord.severity = v.map VulnRecord.severity →
        renderSecuritySection (some (SecurityInput.records u))
          = renderSecuritySection (some (SecurityInput.records v))) := by
  refine ⟨rfl, fun x => rfl, fun si => rfl, ?_, fun m => rfl, ?_⟩
  · intro x y h1 h2 h3 h4
    simp [extract_junit_summary, passedCount, h1, h2, h3, h4]
  · intro u v h
    have hlen : u.length = v.length := by
      simpa using congrArg List.length h
    simp [renderSecuritySection, h, hlen]

/-- Closed instance of the hypothesis-bearing conjunct of the C7 theorem:
two record arrays agreeing on severities render the same security section
whatever their other fields hold. -/
theorem report_rendering_spec_witness :
    renderSecuritySection
        (some (SecurityInput.records [(⟨"high", "lodash"⟩ : VulnRecord)]))
      = renderSecuritySection
        (some (SecurityInput.records [(⟨"high", "minimist"⟩ : VulnRecord)])) :=
  report_rendering_spec.2.2.2.2.2 [⟨"high", "lodash"⟩] [⟨"high", "minimist"⟩] (by decide)

/-- Claim C9: the Passed figure is computed as tests minus failures minus
errors minus skipped over the integers, with no clamping at zero, so an
input whose failures, errors and skipped together exceed its tests yields a
negative Passed value in the report. -/
theorem passed_count_spec :
    (∀ x : JUnitXml,
        extract_junit_summary (some x)
          = TestSummary.counts
              ⟨x.tests, (x.tests : Int) - x.failures - x.errors - x.skipped,
               x.failures, x.errors, x.skipped⟩)
    ∧ (∀ tests failures errors skipped : Nat,
        tests < failures + errors + skipped →
        passedCount tests failures errors skipped < 0) := by
  constructor
  · intro x
    rfl
  · intro t f e s h
    simp only [passedCount]
    omega

/-- Closed instance of the hypothesis-bearing conjunct of the C9 theorem:
one test but two recorded failures gives a negative Passed figure. -/
theorem passed_count_spec_witness :
    passedCount 1 2 0 0 < 0 :=
  passed_count_spec.2 1 2 0 0 (by decide)

/-- Claim C10: the total vulnerability count of the enhanced reporter sums
only the critical, high, moderate and low selections; records with any
other severity (for example `info`) are not counted, so a report holding
only such records yields total 0 and the findings text stays at its
default. -/
theorem security_total_spec :
    (∀ vulns : List VulnRecord,
        EnhancedReporter.securityVulnerabilities vulns
          = EnhancedReporter.countSeverity vulns "critical"
            + EnhancedReporter.countSeverity vulns "high"
            + EnhancedReporter.countSeverity vulns "moderate"
            + EnhancedReporter.countSeverity vulns "low")
    ∧ (∀ vulns : List VulnRecord,
        (∀ v ∈ vulns, v.severity ≠ "critical" ∧ v.severity ≠ "high"
          ∧ v.severity ≠ "moderate" ∧ v.severity ≠ "low") →
        EnhancedReporter.securityVulnerabilities vulns = 0
        ∧ EnhancedReporter.securityFindings vulns = "No vulnerabilities found.") := by
  refine ⟨fun vulns => rfl, ?_⟩
  intro vulns h
  have hcrit : vulns.filter (fun v => v.severity == "critical") = [] :=
    List.filter_eq_nil_iff.mpr (fun v hv => by simp [(h v hv).1])
  have hhigh : vulns.filter (fun v => v.severity == "high") = [] :=
    List.filter_eq_nil_iff.mpr (fun v hv => by simp [(h v hv).2.1])
  have hmod : vulns.filter (fun v => v.severity == "moderate") = [] :=
    List.filter_eq_nil_iff.mpr (fun v hv => by simp [(h v hv).2.2.1])
  have hlow : vulns.filter (fun v => v.severity == "low") = [] :=
    List.filter_eq_nil_iff.mpr (fun v hv => by simp [(h v hv).2.2.2])
  have h0 : EnhancedReporter.securityVulnerabilities vulns = 0 := by
    simp [EnhancedReporter.securityVulnerabilities, EnhancedReporter.countSeverity,
      hcrit, hhigh, hmod, hlow]
  exact ⟨h0, by simp [EnhancedReporter.securityFindings, h0]⟩

/-- Closed instance of the C10 theorem: a report holding only an info-level
record counts 0 vulnerabilities and keeps the default findings text. -/
theorem security_total_spec_witness :
    EnhancedReporter.securityVulnerabilities [(⟨"info", "qs"⟩ : VulnRecord)] = 0
    ∧ EnhancedReporter.securityFindings [(⟨"info", "qs"⟩ : VulnRecord)]
        = "No vulnerabilities found." :=
  security_total_spec.2 [⟨"info", "qs"⟩] (by decide)

/-- Claim C8: under `set -e`, a non-zero exit of the Playwright command
aborts `analyze_ci_results.sh` before `PLAYWRIGHT_EXIT_CODE` is assigned,
so whenever the final exit statement runs the captured value is 0 and the
script exits with status 0 — its non-zero branch is unreachable. -/
theorem analyze_ci_exit_spec (e : AnalyzeCi.Env) :
    (∀ c cap, AnalyzeCi.run (AnalyzeCi.script e) 0 none
        = AnalyzeCi.Outcome.finalExit c cap → cap = some 0 ∧ c = 0)
    ∧ (e.playwright ≠ 0 →
        ∃ c, AnalyzeCi.run (AnalyzeCi.script e) 0 none
          = AnalyzeCi.Outcome.abort c none) := by
  constructor
  · intro c cap h
    simp only [AnalyzeCi.script, AnalyzeCi.run] at h
    split_ifs at h
    all_goals
      first
      | exact AnalyzeCi.Outcome.noConfusion h
      | (injection h with h1 h2
         exact ⟨h2.symm, h1.symm⟩)
  · intro hp
    have hp' : (e.playwright == 0) = false := by simpa using hp
    simp only [AnalyzeCi.script, AnalyzeCi.run, hp', Bool.false_eq_true, if_false]
    split_ifs <;> exact ⟨_, rfl⟩

/-- Closed instance of the C8 theorem: with every setup command succeeding
and the Playwright run failing with code 7, the script aborts with 7 and
the capture never runs. -/
theorem analyze_ci_exit_spec_witness :
    ∃ c, AnalyzeCi.run (AnalyzeCi.script ⟨0, 0, 0, 0, 7, 0, 0, 0, 0⟩) 0 none
      = AnalyzeCi.Outcome.abort c none :=
  (analyze_ci_exit_spec ⟨0, 0, 0, 0, 7, 0, 0, 0, 0⟩).2 (by decide)
